import Mathlib

/-!
Shallow embedding of the `genqa` repository's chunk-processing pipeline
(`src/genqa/extract.py`) and the CSV export consumer (`src/genqa/make_csv.py`).

External collaborators are modelled as explicit parameters:
* the chat-completion model is an oracle
  `model : String → Nat → Nat → ℚ → Except String String`
  (chunk text, max_questions, attempt index, sampling temperature ↦ response
  content or failure); indexing by attempt captures sampling nondeterminism;
* `json.loads` is a parameter `parse : String → Except String Json`;
* the document converter's result is an `Except String (Option String)`
  (an exception, `None`, or the extracted text);
* the semchunk chunker is a parameter `chunker : String → List String`.

Python floats (sampling temperatures) are modelled as exact rationals, and the
on-disk checkpoint file is modelled at the granularity the code manipulates it:
`open(path, "w")` truncates the target file in place, `json.dump` then writes
the full serialized checkpoint.  A `DiskFile` is therefore `absent`, `truncated`
(opened for write, contents not yet completely written — not parseable JSON),
or `complete c` (a fully written checkpoint `c`).
-/

namespace GenQA

/-- Values produced by `json.loads`: the JSON data model.  Numbers are modelled
as integers (no claim depends on fractional numeric values). -/
inductive Json where
  | null : Json
  | bool : Bool → Json
  | num : Int → Json
  | str : String → Json
  | arr : List Json → Json
  | obj : List (String × Json) → Json
deriving Repr

/-- Python truthiness of a parsed JSON value (`if qa_pairs` in
`process_chunk`): `None`, `False`, `0`, `""`, `[]`, `{}` are falsy. -/
def Json.isTruthy : Json → Bool
  | .null => false
  | .bool b => b
  | .num n => n != 0
  | .str s => s != ""
  | .arr xs => !xs.isEmpty
  | .obj kvs => !kvs.isEmpty

/-- Outcome of `generate_qa_pairs` (`extract.py:34-87`): either the parsed JSON
returned from a successful attempt, the exception re-raised on the final failed
attempt (`raise` at line 83), or the trailing `return None` at line 87. -/
inductive GenResult where
  | ok : Json → GenResult
  | raised : String → GenResult
  | fellThrough : GenResult
deriving Repr

/-- One attempt body of `generate_qa_pairs`: call the model
(`llm.create_chat_completion`) at the given attempt index and temperature, then
`json.loads` the returned content.  Either step may fail (raise). -/
def attemptStep (model : Nat → ℚ → Except String String)
    (parse : String → Except String Json) (attempt : Nat) (temp : ℚ) :
    Except String Json :=
  match model attempt temp with
  | .error e => .error e
  | .ok content => parse content

/-- The retry loop of `generate_qa_pairs` (`for attempt in range(max_retries)`),
recursing on the number of remaining attempts; `remaining = max_retries -
attempt` throughout, so `remaining = 1` is exactly `attempt == max_retries - 1`
(the final attempt, whose failure is re-raised).  On a non-final failure the
temperature is increased by `incr` before the next attempt. -/
def genLoop (model : Nat → ℚ → Except String String)
    (parse : String → Except String Json) (incr : ℚ) :
    Nat → Nat → ℚ → GenResult
  | 0, _, _ => .fellThrough
  | r + 1, attempt, temp =>
    match attemptStep model parse attempt temp with
    | .ok v => .ok v
    | .error e =>
      if r = 0 then .raised e
      else genLoop model parse incr r (attempt + 1) (temp + incr)

/-- `generate_qa_pairs(llm, text, max_questions, initial_temperature,
max_retries, temperature_increment)` (`extract.py:34-87`).  The prompt is a
pure function of the chunk text and `max_questions`; both are folded into the
`model` oracle by the caller. -/
def generate_qa_pairs (model : Nat → ℚ → Except String String)
    (parse : String → Except String Json) (initT : ℚ) (maxRetries : Nat)
    (incr : ℚ) : GenResult :=
  genLoop model parse incr maxRetries 0 initT

/-- Specified retry schedule, modelled from the spec's words (§4.2): attempt
`k` (0-based) runs at `initial_temperature + k * temperature_increment`, at
most `maxRetries` attempts are made, the first success is returned, and a
failure on the final attempt propagates to the caller. -/
def specScheduledRetry (step : Nat → Except String Json) :
    Nat → Nat → GenResult
  | 0, _ => .fellThrough
  | r + 1, k =>
    match step k with
    | .ok v => .ok v
    | .error e =>
      if r = 0 then .raised e
      else specScheduledRetry step r (k + 1)

/-- Result of one processed chunk as stored in the checkpoint
(`extract.py:98,101`): the chunk's text, the stored `qa_pairs` value, and the
optional `error` field. -/
structure ChunkResult where
  chunk_text : String
  qa_pairs : Json
  error : Option String
deriving Repr

/-- The dictionary construction in `process_chunk` (`extract.py:96-101`): on
generator success store `qa_pairs if qa_pairs else []` with no error field; on
a raised generator error store an empty list and the error text; on a `None`
return (fell through) store an empty list and no error field. -/
def wrapResult (chunk : String) : GenResult → ChunkResult
  | .ok v => ⟨chunk, if v.isTruthy then v else .arr [], none⟩
  | .raised e => ⟨chunk, .arr [], some e⟩
  | .fellThrough => ⟨chunk, .arr [], none⟩

/-- `process_chunk(llm, chunk, max_questions, temperature)`
(`extract.py:90-101`): calls `generate_qa_pairs` with the call-site defaults
`max_retries = 3`, `temperature_increment = 0.1`, catching any raised error. -/
def process_chunk (model : String → Nat → Nat → ℚ → Except String String)
    (parse : String → Except String Json) (maxQ : Nat) (temp : ℚ)
    (chunk : String) : ChunkResult :=
  wrapResult chunk (generate_qa_pairs (model chunk maxQ) parse temp 3 (1/10))

/-- The checkpoint record built by `process_file` (`extract.py:136-140`). -/
structure Checkpoint where
  source_filepath : String
  markdown_text : String
  chunks : List ChunkResult
deriving Repr

/-- State of the on-disk checkpoint file.  `truncated` is the state between
`open(output_file, "w")` (which truncates the target in place) and the
completion of `json.dump`: the file exists but does not contain a parseable
checkpoint. -/
inductive DiskFile where
  | absent : DiskFile
  | truncated : DiskFile
  | complete : Checkpoint → DiskFile
deriving Repr

/-- A truncated (partially written) file holds no chunk-result list and is not
a well-formed checkpoint; an absent file or a completely written checkpoint is
fine. -/
def DiskFile.wellFormedCheckpoint : DiskFile → Bool
  | .truncated => false
  | _ => true

/-- Fault injection for the per-chunk persist step (`extract.py:151-152`):
the i-th persist either succeeds, fails when opening the file (an I/O error
before the target is touched), or fails during `json.dump` after `open(...,
"w")` already truncated the target. -/
inductive PersistOutcome where
  | ok : PersistOutcome
  | failAtOpen : String → PersistOutcome
  | failAtWrite : String → PersistOutcome

/-- Result of the per-chunk loop: the propagated exception if any, the final
disk state, the 0-based indices of chunks for which `process_chunk` (hence the
model) was invoked, the in-memory checkpoint, and the sequence of disk states
after each file-system micro-operation (truncate, complete write). -/
structure RunOut where
  err : Option String
  disk : DiskFile
  calls : List Nat
  ck : Checkpoint
  hist : List DiskFile
deriving Repr

/-- The per-chunk loop of `process_file` (`extract.py:146-154`): for each
remaining chunk, invoke `process_chunk`, append its result to the in-memory
checkpoint, then rewrite the whole checkpoint file in place (truncate, then
write).  A persist failure propagates (stopping the loop); the model call and
append have already happened at that point. -/
def runChunks (f : String → ChunkResult) (faults : Nat → PersistOutcome) :
    List String → Nat → Checkpoint → DiskFile → RunOut
  | [], _, ck, disk => ⟨none, disk, [], ck, []⟩
  | c :: rest, i, ck, disk =>
    let ck' : Checkpoint := { ck with chunks := ck.chunks ++ [f c] }
    match faults i with
    | .ok =>
      let out := runChunks f faults rest (i + 1) ck' (.complete ck')
      ⟨out.err, out.disk, i :: out.calls, out.ck,
        .truncated :: .complete ck' :: out.hist⟩
    | .failAtOpen e => ⟨some e, disk, [i], ck', []⟩
    | .failAtWrite e => ⟨some e, .truncated, [i], ck', [.truncated]⟩

/-- Observable outcome of `process_file`: early return because conversion
produced `None`; skip because the loaded checkpoint is complete; normal
completion of the loop; or an exception caught by the outer `except` block
(`extract.py:159-160`), after which `process_file` returns normally. -/
inductive Outcome where
  | noText : Outcome
  | skipped : Outcome
  | done : Outcome
  | aborted : String → Outcome
deriving Repr

/-- Full observable result of one `process_file` call. -/
structure FileOut where
  outcome : Outcome
  disk : DiskFile
  calls : List Nat
  hist : List DiskFile
deriving Repr

/-- `process_file` (`extract.py:104-160`).  Branches, in source order: a
conversion exception or `None` text returns early; if the checkpoint file
exists and `overwrite` is false it is loaded (`json.load` raises on a
truncated file, caught by the outer `except`), and if its chunk count equals
the fresh chunk count the document is skipped; otherwise a fresh checkpoint is
initialized; the loop then processes `chunks[len(result["chunks"]):]`. -/
def process_file (convert : Except String (Option String))
    (chunker : String → List String)
    (model : String → Nat → Nat → ℚ → Except String String)
    (parse : String → Except String Json) (maxQ : Nat) (temp : ℚ)
    (faults : Nat → PersistOutcome) (filePath : String) (overwrite : Bool)
    (disk0 : DiskFile) : FileOut :=
  match convert with
  | .error e => ⟨.aborted e, disk0, [], []⟩
  | .ok none => ⟨.noText, disk0, [], []⟩
  | .ok (some text) =>
    let chunks := chunker text
    let f := process_chunk model parse maxQ temp
    match disk0, overwrite with
    | .complete prior, false =>
      if prior.chunks.length = chunks.length then ⟨.skipped, disk0, [], []⟩
      else
        let out := runChunks f faults (chunks.drop prior.chunks.length)
          prior.chunks.length prior disk0
        ⟨match out.err with | none => .done | some e => .aborted e,
          out.disk, out.calls, out.hist⟩
    | .truncated, false => ⟨.aborted "json.load: invalid checkpoint file", disk0, [], []⟩
    | _, _ =>
      let fresh : Checkpoint := ⟨filePath, text, []⟩
      let out := runChunks f faults chunks 0 fresh disk0
      ⟨match out.err with | none => .done | some e => .aborted e,
        out.disk, out.calls, out.hist⟩

/-- The checkpoint extended by the results of the first `m` chunks of `cs`
(appended after `ck`'s existing results). -/
def ckPref (ck : Checkpoint) (f : String → ChunkResult) (cs : List String)
    (m : Nat) : Checkpoint :=
  { ck with chunks := ck.chunks ++ (cs.take m).map f }

/-- Parameters of one document in a batch run (`main`, `extract.py:199-209`). -/
structure FileJob where
  convert : Except String (Option String)
  chunker : String → List String
  model : String → Nat → Nat → ℚ → Except String String
  parse : String → Except String Json
  maxQ : Nat
  temp : ℚ
  faults : Nat → PersistOutcome
  path : String
  overwrite : Bool
  disk : DiskFile

/-- Run one document of the batch. -/
def runJob (j : FileJob) : FileOut :=
  process_file j.convert j.chunker j.model j.parse j.maxQ j.temp j.faults
    j.path j.overwrite j.disk

/-- The batch loop of `main` (`extract.py:200-209`): every input file is
processed in order; `process_file` never propagates an exception, so a failing
document never stops the batch. -/
def main_batch (jobs : List FileJob) : List FileOut :=
  jobs.map runJob

/-- Python `dict[key]` lookup on a parsed JSON object's key-value list. -/
def getKey (kvs : List (String × Json)) (k : String) : Option Json :=
  (kvs.find? (fun p => p.1 = k)).map (fun p => p.2)

/-- Test that a JSON value is an array whose items are all strings
(the `supporting_quotes` item schema in `qa_schema`, `extract.py:23`). -/
def isStringArray : Json → Bool
  | .arr xs => xs.all (fun j => match j with | .str _ => true | _ => false)
  | _ => false

/-- One item's validity under `qa_schema` (`extract.py:16-27`), read with
JSON-Schema semantics: an object whose required keys `question`,
`supporting_quotes`, `answer` are present with types string, array-of-strings,
string.  Note that the schema imposes no non-emptiness on any string. -/
def schemaPairOk : Json → Bool
  | .obj kvs =>
    (match getKey kvs "question" with | some (.str _) => true | _ => false)
    && (match getKey kvs "answer" with | some (.str _) => true | _ => false)
    && (match getKey kvs "supporting_quotes" with
        | some q => isStringArray q
        | none => false)
  | _ => false

/-- A whole response's validity under `qa_schema`: a JSON array of items each
satisfying `schemaPairOk`. -/
def matchesQaSchema : Json → Bool
  | .arr items => items.all schemaPairOk
  | _ => false

/-- Modelled from the spec's words (§8 Schema validity): each item is an object
with a NON-EMPTY string `question`, a NON-EMPTY string `answer`, and an
array-of-strings `supporting_quotes`. -/
def specPairValid : Json → Bool
  | .obj kvs =>
    (match getKey kvs "question" with
      | some (.str q) => q != ""
      | _ => false)
    && (match getKey kvs "answer" with
      | some (.str a) => a != ""
      | _ => false)
    && (match getKey kvs "supporting_quotes" with
        | some q => isStringArray q
        | none => false)
  | _ => false

/-- Modelled from the spec's words: the full fixed shape a model response must
have — a JSON array of valid pairs. -/
def specQaShapeValid : Json → Bool
  | .arr items => items.all specPairValid
  | _ => false

/-- One QA pair as the CSV exporter reads it from a checkpoint file
(`make_csv.py:13-21`). -/
structure ExportPair where
  question : String
  answer : String
  supporting_quotes : List String
deriving Repr

/-- One chunk record as the CSV exporter reads it: only `qa_pairs` is
consumed. -/
structure ExportChunk where
  qa_pairs : List ExportPair
deriving Repr

/-- One checkpoint file as the CSV exporter reads it: `source_filepath` and
`chunks` are consumed. -/
structure ExportDoc where
  source_filepath : String
  chunks : List ExportChunk
deriving Repr

/-- One output row of the CSV export. -/
structure CsvRow where
  file_path : String
  chunk_number : Nat
  qa_number : Nat
  question : String
  answer : String
  supporting_quotes : String
deriving Repr

/-- The row dictionary built by `process_qa_file` (`make_csv.py:14-21`):
`supporting_quotes` are joined by the fixed delimiter `" | "`. -/
def mkCsvRow (fp : String) (cn qn : Nat) (p : ExportPair) : CsvRow :=
  ⟨fp, cn, qn, p.question, p.answer, String.intercalate " | " p.supporting_quotes⟩

/-- `process_qa_file` (`make_csv.py:8-21`): flatten `chunks[*].qa_pairs[*]`
with `enumerate(..., start=1)` on both levels. -/
def process_qa_file (d : ExportDoc) : List CsvRow :=
  (d.chunks.enum).flatMap (fun c =>
    (c.2.qa_pairs.enum).map (fun q =>
      mkCsvRow d.source_filepath (c.1 + 1) (q.1 + 1) q.2))

/-- A well-shaped single QA pair, used as concrete test data. -/
def onePair : Json :=
  .obj [("question", .str "Q1"), ("answer", .str "A1"),
    ("supporting_quotes", .arr [.str "S1"])]

/-- A JSON value that is valid JSON but violates the QA shape entirely. -/
def badJson : Json := .obj [("foo", .num 1)]

/-- A QA pair array with empty question and answer: permitted by `qa_schema`,
rejected by the spec's shape. -/
def emptyStringsPair : Json :=
  .arr [.obj [("question", .str ""), ("answer", .str ""),
    ("supporting_quotes", .arr [])]]

/-- A concrete stand-in for `json.loads` over the fixed response contents the
concrete oracles below produce. -/
def pConc : String → Except String Json := fun s =>
  if s = "EMPTY" then .ok (.arr [])
  else if s = "PAIR" then .ok (.arr [onePair])
  else if s = "BADSHAPE" then .ok badJson
  else .error "invalid json"

/-- Oracle that always fails. -/
def mAlwaysFail : Nat → ℚ → Except String String := fun _ _ => .error "boom"

/-- Oracle that always returns a shape-violating JSON response. -/
def mBadShape : Nat → ℚ → Except String String := fun _ _ => .ok "BADSHAPE"

/-- Per-chunk oracle that always succeeds with an empty pair array. -/
def modelEmpty : String → Nat → Nat → ℚ → Except String String :=
  fun _ _ _ _ => .ok "EMPTY"

/-- Per-chunk oracle that fails permanently on chunk text `c2` and succeeds
with one pair on every other chunk. -/
def model5 : String → Nat → Nat → ℚ → Except String String :=
  fun chunk _ _ _ => if chunk = "c2" then .error "model error" else .ok "PAIR"

/-- A chunker yielding two chunks. -/
def chunker2 : String → List String := fun _ => ["c0", "c1"]

/-- A chunker yielding five chunks. -/
def chunker5 : String → List String := fun _ => ["c0", "c1", "c2", "c3", "c4"]

/-- No persist faults. -/
def noFaults : Nat → PersistOutcome := fun _ => .ok

/-- The very first persist fails during `json.dump`, after the file was
already truncated by `open(..., "w")`. -/
def failWrite0 : Nat → PersistOutcome :=
  fun i => if i = 0 then .failAtWrite "disk full" else .ok

/-- The second persist fails when opening the checkpoint file. -/
def failOpen1 : Nat → PersistOutcome :=
  fun i => if i = 1 then .failAtOpen "io error" else .ok

theorem genLoop_eq_scheduled (model : Nat → ℚ → Except String String)
    (parse : String → Except String Json) (incr initT : ℚ) :
    ∀ (r a : Nat), genLoop model parse incr r a (initT + a * incr) =
      specScheduledRetry (fun k => attemptStep model parse k (initT + k * incr)) r a := by
  intro r
  induction r with
  | zero => intro a; rfl
  | succ r ih =>
    intro a
    simp only [genLoop, specScheduledRetry]
    cases attemptStep model parse a (initT + a * incr) with
    | ok v => rfl
    | error e =>
      simp only
      by_cases hr : r = 0
      · simp [hr]
      · simp only [hr, if_neg]
        have harith : initT + (a : ℚ) * incr + incr = initT + ((a : ℚ) + 1) * incr := by
          ring
        have := ih (a + 1)
        push_cast at this
        rw [harith]
        push_cast
        exact this

theorem genLoop_succ_ne_fellThrough (model : Nat → ℚ → Except String String)
    (parse : String → Except String Json) (incr : ℚ) :
    ∀ (r a : Nat) (t : ℚ),
      genLoop model parse incr (r + 1) a t ≠ GenResult.fellThrough := by
  intro r
  induction r with
  | zero =>
    intro a t
    simp only [genLoop]
    cases attemptStep model parse a t with
    | ok v => simp
    | error e => simp
  | succ r ih =>
    intro a t
    simp only [genLoop]
    cases attemptStep model parse a t with
    | ok v => simp
    | error e =>
      simp only [Nat.succ_ne_zero, if_neg, reduceIte]
      exact ih (a + 1) (t + incr)

theorem ckPref_zero (ck : Checkpoint) (f : String → ChunkResult)
    (cs : List String) : ckPref ck f cs 0 = ck := by
  simp [ckPref]

theorem ckPref_cons (ck : Checkpoint) (f : String → ChunkResult) (c : String)
    (rest : List String) (m : Nat) :
    ckPref { ck with chunks := ck.chunks ++ [f c] } f rest m =
      ckPref ck f (c :: rest) (m + 1) := by
  simp [ckPref, List.take_succ_cons]

theorem runChunks_noFaults (f : String → ChunkResult) :
    ∀ (cs : List String) (k : Nat) (ck : Checkpoint) (disk : DiskFile),
      runChunks f (fun _ => PersistOutcome.ok) cs k ck disk =
        ⟨none,
         if cs.isEmpty then disk
           else .complete (ckPref ck f cs cs.length),
         List.range' k cs.length,
         ckPref ck f cs cs.length,
         (List.range cs.length).flatMap
           (fun j => [.truncated, .complete (ckPref ck f cs (j + 1))])⟩ := by
  intro cs
  induction cs with
  | nil => intro k ck disk; simp [runChunks, ckPref]
  | cons c rest ih =>
    intro k ck disk
    simp only [runChunks, ih, List.length_cons, List.isEmpty_cons,
      RunOut.mk.injEq, true_and]
    refine ⟨?_, ?_, ?_, ?_⟩
    · cases rest with
      | nil => simp [ckPref, List.take_succ_cons]
      | cons d ds => simp [ckPref, List.take_succ_cons]
    · rw [List.range'_succ]
    · rw [ckPref_cons]
    · rw [List.range_succ_eq_map, List.flatMap_cons, List.flatMap_map]
      simp [Function.comp_def, ckPref, List.take_succ_cons]

theorem wrapResult_ok_arr (chunk : String) (ps : List Json) :
    wrapResult chunk (.ok (.arr ps)) = ⟨chunk, .arr ps, none⟩ := by
  cases ps <;> simp [wrapResult, Json.isTruthy]

theorem ckPref_succ_chunks (ck : Checkpoint) (f : String → ChunkResult)
    (cs : List String) (j : Nat) :
    (ckPref ck f cs (j + 1)).chunks =
      (ckPref ck f cs j).chunks ++ (cs[j]?.map f).toList := by
  simp only [ckPref, List.take_succ]
  cases h : cs[j]? <;> simp [h]

theorem runChunks_failOpen (f : String → ChunkResult)
    (faults : Nat → PersistOutcome) (e : String) :
    ∀ (i : Nat) (cs : List String) (k : Nat) (ck : Checkpoint)
      (disk : DiskFile),
      i < cs.length →
      (∀ j, j < i → faults (k + j) = .ok) →
      faults (k + i) = .failAtOpen e →
      runChunks f faults cs k ck disk =
        ⟨some e,
         if i = 0 then disk else .complete (ckPref ck f cs i),
         List.range' k (i + 1),
         ckPref ck f cs (i + 1),
         (List.range i).flatMap
           (fun j => [.truncated, .complete (ckPref ck f cs (j + 1))])⟩ := by
  intro i
  induction i with
  | zero =>
    intro cs k ck disk hlen _ hfail
    match cs, hlen with
    | c :: rest, _ =>
      rw [Nat.add_zero] at hfail
      simp [runChunks, hfail, ckPref, List.take_succ_cons]
  | succ i ih =>
    intro cs k ck disk hlen hok hfail
    match cs, hlen with
    | c :: rest, hlen =>
      have h0 : faults k = .ok := by
        have := hok 0 (Nat.succ_pos i)
        simpa using this
      have hok' : ∀ j, j < i → faults (k + 1 + j) = .ok := by
        intro j hj
        have := hok (j + 1) (by omega)
        simpa [Nat.add_assoc, Nat.add_comm 1 j] using this
      have hfail' : faults (k + 1 + i) = .failAtOpen e := by
        have := hfail
        rwa [show k + (i + 1) = k + 1 + i by omega] at this
      have hlen' : i < rest.length := by simpa using hlen
      simp only [runChunks, h0]
      rw [ih rest (k + 1) _ _ hlen' hok' hfail']
      simp only [RunOut.mk.injEq, true_and]
      refine ⟨?_, ?_, ?_, ?_⟩
      · cases i with
        | zero => simp [ckPref, List.take_succ_cons]
        | succ m => simp [ckPref_cons]
      · simp [List.range'_succ]
      · rw [ckPref_cons]
      · rw [List.range_succ_eq_map, List.flatMap_cons, List.flatMap_map]
        simp [Function.comp_def, ckPref, List.take_succ_cons]

theorem flatMapPairs_getElem_odd {α : Type} :
    ∀ (n : Nat) (a b : Nat → α) (j : Nat),
      ((List.range n).flatMap (fun i => [a i, b i]))[2 * j + 1]? =
        if j < n then some (b j) else none := by
  intro n
  induction n with
  | zero => intro a b j; simp
  | succ n ih =>
    intro a b j
    rw [List.range_succ_eq_map, List.flatMap_cons, List.flatMap_map]
    cases j with
    | zero => simp
    | succ j =>
      have harith : 2 * (j + 1) + 1 = (2 * j + 1) + 1 + 1 := by omega
      rw [harith]
      simp only [List.cons_append, List.nil_append, List.getElem?_cons_succ]
      rw [ih (fun i => a (i + 1)) (fun i => b (i + 1)) j]
      simp [Function.comp_def]

theorem flatMapPairs_getElem_even {α : Type} :
    ∀ (n : Nat) (a b : Nat → α) (j : Nat),
      ((List.range n).flatMap (fun i => [a i, b i]))[2 * j]? =
        if j < n then some (a j) else none := by
  intro n
  induction n with
  | zero => intro a b j; simp
  | succ n ih =>
    intro a b j
    rw [List.range_succ_eq_map, List.flatMap_cons, List.flatMap_map]
    cases j with
    | zero => simp
    | succ j =>
      have harith : 2 * (j + 1) = (2 * j) + 1 + 1 := by omega
      rw [harith]
      simp only [List.cons_append, List.nil_append, List.getElem?_cons_succ]
      rw [ih (fun i => a (i + 1)) (fun i => b (i + 1)) j]
      simp [Function.comp_def]

theorem enumFrom_map_getD {α β : Type} (dflt : α) :
    ∀ (ps : List α) (s : Nat) (h : Nat × α → β),
      (List.enumFrom s ps).map h =
        (List.range ps.length).map (fun j => h (s + j, ps.getD j dflt)) := by
  intro ps
  induction ps with
  | nil => intro s h; simp
  | cons p rest ih =>
    intro s h
    simp only [List.enumFrom, List.map_cons, List.length_cons,
      List.range_succ_eq_map, List.map_map, Nat.add_zero, List.getD_cons_zero]
    rw [ih (s + 1)]
    congr 1
    apply List.map_congr_left
    intro j _
    simp only [Function.comp_def, List.getD_cons_succ]
    congr 2
    omega

theorem enumFrom_flatMap_getD {α β : Type} (dflt : α) :
    ∀ (chs : List α) (s : Nat) (g : Nat × α → List β),
      (List.enumFrom s chs).flatMap g =
        (List.range chs.length).flatMap
          (fun i => g (s + i, chs.getD i dflt)) := by
  intro chs
  induction chs with
  | nil => intro s g; simp
  | cons c rest ih =>
    intro s g
    simp only [List.enumFrom, List.flatMap_cons, List.length_cons,
      List.range_succ_eq_map, List.flatMap_map, Nat.add_zero,
      List.getD_cons_zero]
    rw [ih (s + 1)]
    congr 1
    apply List.flatMap_congr
    intro i _
    have harith : s + 1 + i = s + (i + 1) := by omega
    simp [Function.comp_def, List.getD_cons_succ, harith]

/-- C5: `generate_qa_pairs` attempts the completion call at most
`max_retries` times, attempt `k` (0-based) runs at
`initial_temperature + k * temperature_increment` (the incremental
`temperature += temperature_increment` of the source equals the closed-form
schedule over exact rationals), the first success is returned, a failure on
the final attempt is propagated as a raised error, and the function fails
only after exhausting all retries: the source's retry loop is exactly the
specified schedule `specScheduledRetry`, which consults attempt `k` only at
temperature `initT + k * incr` and only for `k < maxRetries`. -/
theorem claim_C5_retry_schedule (model : Nat → ℚ → Except String String)
    (parse : String → Except String Json) (initT incr : ℚ)
    (maxRetries : Nat) :
    generate_qa_pairs model parse initT maxRetries incr =
      specScheduledRetry
        (fun k => attemptStep model parse k (initT + k * incr)) maxRetries 0 := by
  have h := genLoop_eq_scheduled model parse incr initT maxRetries 0
  simpa [generate_qa_pairs] using h

/-- C10: for `max_retries ≥ 1` the trailing `return None` (`extract.py:87`)
is unreachable — `generate_qa_pairs` either returns a parsed output or raises
from the final attempt; only `max_retries = 0` reaches it, and
`process_chunk`'s handling (`qa_pairs if qa_pairs else []`) records a `None`
return as an empty pair list with no error field. -/
theorem claim_C10_return_none_unreachable
    (model : Nat → ℚ → Except String String)
    (parse : String → Except String Json) (initT incr : ℚ) (maxRetries : Nat)
    (chunk : String) :
    (1 ≤ maxRetries →
      generate_qa_pairs model parse initT maxRetries incr ≠
        GenResult.fellThrough)
    ∧ generate_qa_pairs model parse initT 0 incr = GenResult.fellThrough
    ∧ wrapResult chunk GenResult.fellThrough = ⟨chunk, .arr [], none⟩ := by
  refine ⟨fun h => ?_, rfl, rfl⟩
  cases maxRetries with
  | zero => omega
  | succ r => exact genLoop_succ_ne_fellThrough model parse incr r 0 initT

/-- Witness for C10 at a concrete input: one retry, an always-failing model. -/
theorem claim_C10_witness :
    1 ≤ 1 ∧
      generate_qa_pairs mAlwaysFail pConc 0 1 (1/10) ≠ GenResult.fellThrough :=
  ⟨Nat.le_refl 1,
    (claim_C10_return_none_unreachable mAlwaysFail pConc 0 (1/10) 1 "c").1
      (Nat.le_refl 1)⟩

/-- C4 counterexample: the claim says a model response that parses as JSON
but violates the QA shape is rejected and retried, never returned to the
caller.  In the source (`extract.py:77-78`) the output of `json.loads` is
returned with no shape check: with an oracle whose first response is
`badJson` (valid JSON, not even an array), `generate_qa_pairs` returns it on
attempt 0, although it violates both the spec's shape and even the declared
`qa_schema`. -/
theorem claim_C4_counterexample :
    generate_qa_pairs mBadShape pConc 0 3 (1/10) = GenResult.ok badJson
    ∧ specQaShapeValid badJson = false
    ∧ matchesQaSchema badJson = false :=
  ⟨rfl, rfl, rfl⟩

/-- C4 amended: `generate_qa_pairs` performs no shape validation after
`json.loads` — any response that parses as JSON, whatever its shape, is
returned to the caller from that attempt (the declared `qa_schema` is only
passed to the completion call as a `response_format` constraint); moreover
`qa_schema` itself permits empty `question` and `answer` strings, which the
spec's shape forbids. -/
theorem claim_C4_amended_no_shape_validation
    (model : Nat → ℚ → Except String String)
    (parse : String → Except String Json) (initT incr : ℚ) (s : String)
    (v : Json) (maxRetries : Nat) (h1 : 1 ≤ maxRetries)
    (hmodel : model 0 initT = Except.ok s)
    (hparse : parse s = Except.ok v) :
    generate_qa_pairs model parse initT maxRetries incr = GenResult.ok v
    ∧ matchesQaSchema emptyStringsPair = true
    ∧ specQaShapeValid emptyStringsPair = false := by
  refine ⟨?_, rfl, rfl⟩
  cases maxRetries with
  | zero => omega
  | succ r => simp [generate_qa_pairs, genLoop, attemptStep, hmodel, hparse]

/-- Witness for C4's amended claim at a concrete input. -/
theorem claim_C4_amended_witness :
    1 ≤ 3 ∧ mBadShape 0 0 = Except.ok "BADSHAPE"
    ∧ pConc "BADSHAPE" = Except.ok badJson
    ∧ generate_qa_pairs mBadShape pConc 0 3 (1/10) = GenResult.ok badJson :=
  ⟨by omega, rfl, rfl,
    (claim_C4_amended_no_shape_validation mBadShape pConc 0 (1/10) "BADSHAPE"
      badJson 3 (by omega) rfl rfl).1⟩

/-- C3: `process_chunk` is total (it is a function into `ChunkResult`; the
`try`/`except` at `extract.py:96-101` absorbs any raised error).  On generator
success with a pair array it returns the chunk's text and that array — an
empty array is stored as-is with no error field, not treated as failure; on a
generator failure after all retries it returns the chunk's text, an empty pair
list and the error text.  Consequently, in a 5-chunk document whose model
fails permanently exactly on chunk index 2, the final checkpoint holds 5
`ChunkResult`s: index 2 with an empty pair list and the error text, the others
with the model's pairs. -/
theorem claim_C3_failure_isolation
    (model : String → Nat → Nat → ℚ → Except String String)
    (parse : String → Except String Json) (maxQ : Nat) (temp : ℚ) :
    (∀ chunk ps,
      generate_qa_pairs (model chunk maxQ) parse temp 3 (1/10) =
          GenResult.ok (.arr ps) →
        process_chunk model parse maxQ temp chunk = ⟨chunk, .arr ps, none⟩)
    ∧ (∀ chunk e,
      generate_qa_pairs (model chunk maxQ) parse temp 3 (1/10) =
          GenResult.raised e →
        process_chunk model parse maxQ temp chunk = ⟨chunk, .arr [], some e⟩)
    ∧ (∀ (t0 t1 t2 t3 t4 : String) (ps0 ps1 ps3 ps4 : List Json) (e2 : String)
        (chunker : String → List String) (text filePath : String),
        chunker text = [t0, t1, t2, t3, t4] →
        generate_qa_pairs (model t0 maxQ) parse temp 3 (1/10) =
          GenResult.ok (.arr ps0) →
        generate_qa_pairs (model t1 maxQ) parse temp 3 (1/10) =
          GenResult.ok (.arr ps1) →
        generate_qa_pairs (model t2 maxQ) parse temp 3 (1/10) =
          GenResult.raised e2 →
        generate_qa_pairs (model t3 maxQ) parse temp 3 (1/10) =
          GenResult.ok (.arr ps3) →
        generate_qa_pairs (model t4 maxQ) parse temp 3 (1/10) =
          GenResult.ok (.arr ps4) →
        (process_file (.ok (some text)) chunker model parse maxQ temp noFaults
            filePath false .absent).disk =
          DiskFile.complete ⟨filePath, text,
            [⟨t0, .arr ps0, none⟩, ⟨t1, .arr ps1, none⟩,
             ⟨t2, .arr [], some e2⟩, ⟨t3, .arr ps3, none⟩,
             ⟨t4, .arr ps4, none⟩]⟩
        ∧ (process_file (.ok (some text)) chunker model parse maxQ temp
            noFaults filePath false .absent).outcome = Outcome.done) := by
  refine ⟨?_, ?_, ?_⟩
  · intro chunk ps h
    rw [process_chunk, h]
    exact wrapResult_ok_arr chunk ps
  · intro chunk e h
    rw [process_chunk, h]
    simp [wrapResult]
  · intro t0 t1 t2 t3 t4 ps0 ps1 ps3 ps4 e2 chunker text fp hch h0 h1 h2 h3 h4
    have hf0 := (by rw [process_chunk, h0]; exact wrapResult_ok_arr t0 ps0 :
      process_chunk model parse maxQ temp t0 = ⟨t0, .arr ps0, none⟩)
    have hf1 := (by rw [process_chunk, h1]; exact wrapResult_ok_arr t1 ps1 :
      process_chunk model parse maxQ temp t1 = ⟨t1, .arr ps1, none⟩)
    have hf2 := (by rw [process_chunk, h2]; simp [wrapResult] :
      process_chunk model parse maxQ temp t2 = ⟨t2, .arr [], some e2⟩)
    have hf3 := (by rw [process_chunk, h3]; exact wrapResult_ok_arr t3 ps3 :
      process_chunk model parse maxQ temp t3 = ⟨t3, .arr ps3, none⟩)
    have hf4 := (by rw [process_chunk, h4]; exact wrapResult_ok_arr t4 ps4 :
      process_chunk model parse maxQ temp t4 = ⟨t4, .arr ps4, none⟩)
    simp only [process_file, hch]
    rw [show noFaults = (fun _ => PersistOutcome.ok) from rfl, runChunks_noFaults]
    constructor <;> simp [ckPref, hf0, hf1, hf2, hf3, hf4]

/-- Witness for C3 at a concrete 5-chunk document whose model fails
permanently on chunk text `c2` only. -/
theorem claim_C3_witness :
    generate_qa_pairs (model5 "c2" 3) pConc 0 3 (1/10) =
      GenResult.raised "model error"
    ∧ (process_file (.ok (some "T")) chunker5 model5 pConc 3 0 noFaults
        "f.pdf" false .absent).disk =
      DiskFile.complete ⟨"f.pdf", "T",
        [⟨"c0", .arr [onePair], none⟩, ⟨"c1", .arr [onePair], none⟩,
         ⟨"c2", .arr [], some "model error"⟩, ⟨"c3", .arr [onePair], none⟩,
         ⟨"c4", .arr [onePair], none⟩]⟩ :=
  ⟨rfl, ((claim_C3_failure_isolation model5 pConc 3 0).2.2 "c0" "c1" "c2" "c3"
    "c4" [onePair] [onePair] [onePair] [onePair] "model error" chunker5 "T"
    "f.pdf" rfl rfl rfl rfl rfl rfl).1⟩

/-- C1: with an existing checkpoint file and `overwrite` false, `process_file`
loads it; if its chunk-result count equals the fresh chunk count the document
is skipped (no model call, no write, disk unchanged); otherwise processing
resumes exactly at index `len(chunk_results)` — the model is invoked exactly
for indices `len(chunk_results), …, n-1` and never for `0..len-1` — and when
the stored count is below the chunk count the final disk state appends results
for exactly the remaining chunks.  Consequently a second fault-free run with
the same parameters leaves the same final checkpoint as a single run and makes
no model call. -/
theorem claim_C1_resumption_idempotence (chunker : String → List String)
    (model : String → Nat → Nat → ℚ → Except String String)
    (parse : String → Except String Json) (maxQ : Nat) (temp : ℚ)
    (text filePath : String) :
    (∀ prior : Checkpoint,
      prior.chunks.length = (chunker text).length →
      process_file (.ok (some text)) chunker model parse maxQ temp noFaults
          filePath false (.complete prior) =
        ⟨.skipped, .complete prior, [], []⟩)
    ∧ (∀ prior : Checkpoint,
      prior.chunks.length ≠ (chunker text).length →
      (process_file (.ok (some text)) chunker model parse maxQ temp noFaults
          filePath false (.complete prior)).calls =
        List.range' prior.chunks.length
          ((chunker text).length - prior.chunks.length)
      ∧ (process_file (.ok (some text)) chunker model parse maxQ temp noFaults
          filePath false (.complete prior)).outcome = Outcome.done
      ∧ (prior.chunks.length < (chunker text).length →
        (process_file (.ok (some text)) chunker model parse maxQ temp noFaults
            filePath false (.complete prior)).disk =
          DiskFile.complete
            (ckPref prior (process_chunk model parse maxQ temp)
              ((chunker text).drop prior.chunks.length)
              ((chunker text).length - prior.chunks.length))))
    ∧ ((process_file (.ok (some text)) chunker model parse maxQ temp noFaults
          filePath false
          (process_file (.ok (some text)) chunker model parse maxQ temp
            noFaults filePath false .absent).disk).disk =
        (process_file (.ok (some text)) chunker model parse maxQ temp noFaults
          filePath false .absent).disk
      ∧ (process_file (.ok (some text)) chunker model parse maxQ temp noFaults
          filePath false
          (process_file (.ok (some text)) chunker model parse maxQ temp
            noFaults filePath false .absent).disk).calls = []) := by
  have hnf : noFaults = (fun _ => PersistOutcome.ok) := rfl
  refine ⟨?_, ?_, ?_⟩
  · intro prior h
    simp [process_file, h]
  · intro prior h
    have hlen : ((chunker text).drop prior.chunks.length).length =
        (chunker text).length - prior.chunks.length := List.length_drop ..
    simp only [process_file, hnf]
    rw [if_neg h, runChunks_noFaults]
    refine ⟨by simp [hlen], rfl, ?_⟩
    intro hlt
    have hne : ¬((chunker text).drop prior.chunks.length).isEmpty = true := by
      rw [List.isEmpty_iff_length_eq_zero, hlen]
      omega
    simp [hne, hlen]
  · cases hchunks : chunker text with
    | nil =>
      constructor <;> simp [process_file, hchunks, runChunks]
    | cons c cs =>
      have hfirst :
          (process_file (.ok (some text)) chunker model parse maxQ temp
            noFaults filePath false .absent).disk =
          DiskFile.complete
            (ckPref ⟨filePath, text, []⟩ (process_chunk model parse maxQ temp)
              (c :: cs) (c :: cs).length) := by
        simp only [process_file, hchunks, hnf]
        rw [runChunks_noFaults]
        simp
      rw [hfirst]
      have hcklen :
          (ckPref ⟨filePath, text, []⟩ (process_chunk model parse maxQ temp)
            (c :: cs) (cs.length + 1)).chunks.length =
          (chunker text).length := by
        simp [ckPref, hchunks]
      constructor
      · simp [process_file, hcklen]
      · simp [process_file, hcklen]

/-- Witness for C1 at concrete inputs: a complete 2-result checkpoint is
skipped unchanged; a 1-result checkpoint resumes with a model call for chunk
index 1 only. -/
theorem claim_C1_witness :
    process_file (.ok (some "T")) chunker2 modelEmpty pConc 3 0 noFaults
        "d.pdf" false
        (.complete ⟨"d.pdf", "T",
          [⟨"c0", .arr [], none⟩, ⟨"c1", .arr [], none⟩]⟩) =
      ⟨.skipped,
        .complete ⟨"d.pdf", "T",
          [⟨"c0", .arr [], none⟩, ⟨"c1", .arr [], none⟩]⟩, [], []⟩
    ∧ (process_file (.ok (some "T")) chunker2 modelEmpty pConc 3 0 noFaults
        "d.pdf" false
        (.complete ⟨"d.pdf", "T", [⟨"c0", .arr [], none⟩]⟩)).calls = [1] :=
  ⟨(claim_C1_resumption_idempotence chunker2 modelEmpty pConc 3 0 "T"
      "d.pdf").1 ⟨"d.pdf", "T", [⟨"c0", .arr [], none⟩, ⟨"c1", .arr [], none⟩]⟩
      (by decide),
    ((claim_C1_resumption_idempotence chunker2 modelEmpty pConc 3 0 "T"
      "d.pdf").2.1 ⟨"d.pdf", "T", [⟨"c0", .arr [], none⟩]⟩ (by decide)).1⟩

/-- C9: when an existing checkpoint (with `overwrite` false) holds strictly
more chunk results than the freshly computed chunk count, `process_file`
takes the resume branch (outcome `done`, not `skipped`), but
`chunks[len(result["chunks"]):]` is empty, so the loop runs zero times: no
model call is made (`calls = []`), no file-system operation happens
(`hist = []`), and the stale longer checkpoint is left on disk unchanged. -/
theorem claim_C9_stale_longer_checkpoint (chunker : String → List String)
    (model : String → Nat → Nat → ℚ → Except String String)
    (parse : String → Except String Json) (maxQ : Nat) (temp : ℚ)
    (faults : Nat → PersistOutcome) (text filePath : String)
    (prior : Checkpoint)
    (h : (chunker text).length < prior.chunks.length) :
    process_file (.ok (some text)) chunker model parse maxQ temp faults
        filePath false (.complete prior) =
      ⟨.done, .complete prior, [], []⟩ := by
  have hne : ¬(prior.chunks.length = (chunker text).length) := by omega
  have hdrop : (chunker text).drop prior.chunks.length = [] := by
    rw [List.drop_eq_nil_iff]
    omega
  simp [process_file, hne, hdrop, runChunks]

/-- Witness for C9 at a concrete input: a 3-result checkpoint against a
2-chunk document. -/
theorem claim_C9_witness :
    (chunker2 "T").length < 3 ∧
      process_file (.ok (some "T")) chunker2 modelEmpty pConc 3 0 noFaults
          "d.pdf" false
          (.complete ⟨"d.pdf", "T",
            [⟨"c0", .arr [], none⟩, ⟨"c1", .arr [], none⟩,
             ⟨"cx", .arr [], none⟩]⟩) =
        ⟨.done,
          .complete ⟨"d.pdf", "T",
            [⟨"c0", .arr [], none⟩, ⟨"c1", .arr [], none⟩,
             ⟨"cx", .arr [], none⟩]⟩, [], []⟩ :=
  ⟨by decide,
    claim_C9_stale_longer_checkpoint chunker2 modelEmpty pConc 3 0 noFaults
      "T" "d.pdf"
      ⟨"d.pdf", "T", [⟨"c0", .arr [], none⟩, ⟨"c1", .arr [], none⟩,
        ⟨"cx", .arr [], none⟩]⟩ (by decide)⟩

/-- C6: throughout a fault-free run of the per-chunk loop, the chunk-result
list is always an in-order prefix of the chunk sequence.  With `ckPref ck f cs
j` the checkpoint after `j` successful steps: the final in-memory checkpoint
holds all results in order; the checkpoint persisted after step `j` (odd
position `2*j+1` of the micro-operation history) is exactly the `(j+1)`-chunk
prefix; each step's checkpoint extends the previous one by exactly the result
of chunk `j` (never out of order, never skipping); and the persisted count
after `j` steps is the prior count plus exactly `j`, so each successful step
increases it by exactly 1 and it never decreases. -/
theorem claim_C6_in_order_chunk_results (f : String → ChunkResult)
    (cs : List String) (k : Nat) (ck : Checkpoint) (disk : DiskFile)
    (j : Nat) :
    (runChunks f (fun _ => PersistOutcome.ok) cs k ck disk).ck =
      ckPref ck f cs cs.length
    ∧ (runChunks f (fun _ => PersistOutcome.ok) cs k ck disk).hist[2 * j + 1]? =
      (if j < cs.length then some (.complete (ckPref ck f cs (j + 1)))
        else none)
    ∧ (ckPref ck f cs (j + 1)).chunks =
      (ckPref ck f cs j).chunks ++ (cs[j]?.map f).toList
    ∧ (ckPref ck f cs j).chunks.length =
      ck.chunks.length + min j cs.length := by
  refine ⟨?_, ?_, ckPref_succ_chunks ck f cs j, ?_⟩
  · rw [runChunks_noFaults]
  · rw [runChunks_noFaults]
    exact flatMapPairs_getElem_odd cs.length _ _ j
  · simp [ckPref, Nat.min_comm]

/-- C2 counterexample: in a fault-free 2-chunk run from no prior checkpoint,
the micro-operation history is `[truncated, complete ck1, truncated, complete
ck2]`.  Position 1 shows chunk 0's result durably persisted; position 2 is the
state after `open(output_file, "w")` truncated the file during chunk 1's
persist and before `json.dump` completed: a crash there leaves a truncated
file that is not a well-formed checkpoint and no longer contains chunk 0's
persisted result — so the write is not a temp-then-replace, a crash mid-write
can lose more than one chunk's work, and it can leave an on-disk state with no
consistent chunk-result list. -/
theorem claim_C2_counterexample :
    (process_file (.ok (some "T")) chunker2 modelEmpty pConc 3 0 noFaults
        "d.pdf" false .absent).hist[1]? =
      some (.complete ⟨"d.pdf", "T", [⟨"c0", .arr [], none⟩]⟩)
    ∧ (process_file (.ok (some "T")) chunker2 modelEmpty pConc 3 0 noFaults
        "d.pdf" false .absent).hist[2]? = some DiskFile.truncated
    ∧ DiskFile.truncated.wellFormedCheckpoint = false :=
  ⟨rfl, rfl, rfl⟩

/-- C2 amended: after every single processed chunk (not batched) the loop
appends exactly one `ChunkResult` and rewrites the checkpoint's entire on-disk
representation before the next chunk — but in place, by truncating the target
file and then writing it anew, not by a write-to-temp-then-replace discipline.
The micro-operation history of a fault-free run is exactly, per chunk `j`, a
`truncated` state followed by the complete `(j+1)`-prefix checkpoint (no
temp-file or rename step exists); each persisted checkpoint extends the
previous one by exactly one result.  A crash at a chunk boundary (odd history
position) loses at most the in-flight chunk, but a crash inside a persist
(even position `2*j`) leaves a truncated, unparseable file. -/
theorem claim_C2_amended_in_place_rewrite (f : String → ChunkResult)
    (cs : List String) (k : Nat) (ck : Checkpoint) (disk : DiskFile)
    (j : Nat) :
    (runChunks f (fun _ => PersistOutcome.ok) cs k ck disk).hist =
      (List.range cs.length).flatMap
        (fun i => [.truncated, .complete (ckPref ck f cs (i + 1))])
    ∧ (runChunks f (fun _ => PersistOutcome.ok) cs k ck disk).hist[2 * j]? =
      (if j < cs.length then some DiskFile.truncated else none)
    ∧ (ckPref ck f cs (j + 1)).chunks.length =
      (ckPref ck f cs j).chunks.length + (cs[j]?.map f).toList.length := by
  refine ⟨?_, ?_, ?_⟩
  · rw [runChunks_noFaults]
  · rw [runChunks_noFaults]
    exact flatMapPairs_getElem_even cs.length _ _ j
  · rw [ckPref_succ_chunks]
    simp

/-- C7 counterexample: the claim says that after a driver-level failure "the
checkpoint on disk is left at the last successfully persisted chunk boundary".
With an I/O failure during `json.dump` of the very first persist (after
`open(output_file, "w")` already truncated the target), the outer `except`
does catch the error and `process_file` returns normally, but the disk is left
`truncated` — not at the last persisted boundary, which here is the initial
state (no checkpoint file, `absent`). -/
theorem claim_C7_counterexample :
    process_file (.ok (some "T")) chunker2 modelEmpty pConc 3 0 failWrite0
        "d.pdf" false .absent =
      ⟨.aborted "disk full", .truncated, [0], [.truncated]⟩
    ∧ DiskFile.truncated ≠ DiskFile.absent :=
  ⟨rfl, fun h => DiskFile.noConfusion h⟩

/-- C7 amended: a driver-level exception (modelled by a persist fault) is
caught inside `process_file`, which returns normally with the error recorded
as an `aborted` outcome, and the batch loop of `main` processes every input
independently, so subsequent documents continue.  When the failing operation
is opening the checkpoint file (so the target is untouched), the disk is
indeed left at the last successfully persisted chunk boundary; a failure
during the in-place `json.dump` itself instead leaves a truncated file (see
the counterexample). -/
theorem claim_C7_amended_failure_containment :
    (∀ (jobs : List FileJob) (m : Nat),
      (main_batch jobs).length = jobs.length
      ∧ (main_batch jobs)[m]? = (jobs[m]?).map runJob)
    ∧ (∀ (chunker : String → List String)
        (model : String → Nat → Nat → ℚ → Except String String)
        (parse : String → Except String Json) (maxQ : Nat) (temp : ℚ)
        (faults : Nat → PersistOutcome) (text filePath : String)
        (overwrite : Bool) (e : String) (i : Nat),
        i < (chunker text).length →
        (∀ j, j < i → faults j = PersistOutcome.ok) →
        faults i = PersistOutcome.failAtOpen e →
        process_file (.ok (some text)) chunker model parse maxQ temp faults
            filePath overwrite .absent =
          ⟨.aborted e,
           if i = 0 then .absent
             else .complete (ckPref ⟨filePath, text, []⟩
               (process_chunk model parse maxQ temp) (chunker text) i),
           List.range' 0 (i + 1),
           (List.range i).flatMap
             (fun j => [.truncated,
               .complete (ckPref ⟨filePath, text, []⟩
                 (process_chunk model parse maxQ temp) (chunker text)
                 (j + 1))])⟩) := by
  constructor
  · intro jobs m
    exact ⟨List.length_map .., List.getElem?_map ..⟩
  · intro chunker model parse maxQ temp faults text filePath ow e i hi hok
      hfail
    have hok0 : ∀ j, j < i → faults (0 + j) = PersistOutcome.ok := by
      intro j hj
      simpa using hok j hj
    have hfail0 : faults (0 + i) = PersistOutcome.failAtOpen e := by
      simpa using hfail
    cases ow <;>
      · simp only [process_file]
        rw [runChunks_failOpen (process_chunk model parse maxQ temp) faults e
          i (chunker text) 0 ⟨filePath, text, []⟩ .absent hi hok0 hfail0]

/-- Witness for C7's amended claim: the second persist fails at `open`, the
run aborts with the error caught, and the disk holds exactly the 1-chunk
boundary checkpoint. -/
theorem claim_C7_amended_witness :
    1 < (chunker2 "T").length ∧
      process_file (.ok (some "T")) chunker2 modelEmpty pConc 3 0 failOpen1
          "d.pdf" false .absent =
        ⟨.aborted "io error",
          .complete ⟨"d.pdf", "T", [⟨"c0", .arr [], none⟩]⟩, [0, 1],
          [.truncated, .complete ⟨"d.pdf", "T", [⟨"c0", .arr [], none⟩]⟩]⟩ := by
  refine ⟨by decide, ?_⟩
  have h := (claim_C7_amended_failure_containment).2 chunker2 modelEmpty pConc
    3 0 failOpen1 "T" "d.pdf" false "io error" 1 (by decide)
    (fun j hj => by
      have hj0 : j = 0 := by omega
      subst hj0
      rfl)
    rfl
  exact h.trans rfl

/-- C8: the CSV export flattens `chunks[*].qa_pairs[*]` into one row per QA
pair, in chunk order then pair order, with `chunk_number = i + 1` (1-based
chunk index), `qa_number = j + 1` restarting at 1 for each chunk, `file_path`
the checkpoint's `source_filepath`, and `supporting_quotes` joined by the
fixed delimiter `" | "`; a chunk with an empty `qa_pairs` list contributes an
empty range, hence no rows. -/
theorem claim_C8_csv_flattening (d : ExportDoc) :
    process_qa_file d =
      (List.range d.chunks.length).flatMap (fun i =>
        (List.range (d.chunks.getD i ⟨[]⟩).qa_pairs.length).map (fun j =>
          mkCsvRow d.source_filepath (i + 1) (j + 1)
            ((d.chunks.getD i ⟨[]⟩).qa_pairs.getD j ⟨"", "", []⟩))) := by
  rw [process_qa_file,
    show d.chunks.enum = List.enumFrom 0 d.chunks from rfl,
    enumFrom_flatMap_getD (⟨[]⟩ : ExportChunk)]
  apply List.flatMap_congr
  intro i _
  rw [show ((d.chunks.getD i ⟨[]⟩).qa_pairs).enum =
      List.enumFrom 0 (d.chunks.getD i ⟨[]⟩).qa_pairs from rfl,
    enumFrom_map_getD (⟨"", "", []⟩ : ExportPair)]
  simp

end GenQA
